import Mathlib

/-!
Verification development for the media-scanner core (src/scanner.ts).

The scanner's per-file pipeline, CINF/TINF record generation, timebase
inference, field-order detection and the dead-media sweep are embedded
shallowly below.  JavaScript numbers are modelled as exact rationals
extended with NaN and signed infinities (`JNum`); values that the source
keeps as strings (the cells produced by `String.split('/')`) are kept as
strings (`JsVal`), so that JavaScript's strict-equality and coercion
behaviour is preserved.  Date formatting fixes the process timezone to
UTC.  External collaborators (ffprobe/ffmpeg invocations, the PouchDB
catalog store, the chokidar watcher) are represented by their observable
request/response values, as the spec treats them (spec sections 4.4, 6).
-/

/-- Exact rational numbers in a kernel-computable normalized
representation: numerator, positive denominator, reduced by their gcd.
Mathlib's `Rat` arithmetic is sealed irreducible and cannot be evaluated
by `decide`, so the embedding carries its own copy; every operation
below renormalizes, so structural equality is value equality. -/
structure JQ where
  n : ℤ
  d : ℕ
deriving DecidableEq

/-- Normalized rational from a numerator and a nonzero denominator: the
sign moves to the numerator and both are divided by their gcd. -/
def jqNorm (n d : ℤ) : JQ :=
  let sn : ℤ := if d < 0 then -n else n
  let dd : ℕ := d.natAbs
  let g : ℕ := sn.natAbs.gcd dd
  if g = 0 then ⟨0, 1⟩ else ⟨sn / (g : ℤ), dd / g⟩

/-- Integer as a rational. -/
def jqInt (i : ℤ) : JQ := ⟨i, 1⟩

/-- Rational addition. -/
def jqAdd (a b : JQ) : JQ :=
  jqNorm (a.n * (b.d : ℤ) + b.n * (a.d : ℤ)) ((a.d : ℤ) * (b.d : ℤ))

/-- Rational multiplication. -/
def jqMul (a b : JQ) : JQ := jqNorm (a.n * b.n) ((a.d : ℤ) * (b.d : ℤ))

/-- Rational division (the callers exclude a zero divisor). -/
def jqDiv (a b : JQ) : JQ := jqNorm (a.n * (b.d : ℤ)) ((a.d : ℤ) * b.n)

/-- Rational negation. -/
def jqNeg (a : JQ) : JQ := ⟨-a.n, a.d⟩

/-- Rational subtraction. -/
def jqSub (a b : JQ) : JQ := jqAdd a (jqNeg b)

/-- Zero test. -/
def jqIsZero (a : JQ) : Bool := a.n == 0

/-- Negativity test. -/
def jqIsNeg (a : JQ) : Bool := decide (a.n < 0)

/-- Positivity test. -/
def jqIsPos (a : JQ) : Bool := decide (0 < a.n)

/-- Floor of a rational. -/
def jqFloor (a : JQ) : ℤ := Int.fdiv a.n (a.d : ℤ)

/-- The rational `10 ^ k`. -/
def jqPow10 (k : ℕ) : JQ := ⟨(10 : ℤ) ^ k, 1⟩

/-- JavaScript number values in the exact fragment used by the scanner:
finite doubles are modelled as exact rationals, plus NaN and the two
signed infinities (`inf true` is positive infinity). -/
inductive JNum where
  | nan : JNum
  | inf : Bool → JNum
  | fin : JQ → JNum
deriving DecidableEq

/-- JavaScript values that can appear in a `Timebase` cell of
`generateCinf`: `undefined` (out-of-range array index), a number, or a
string (the cells produced by `'a/b'.split('/')` are strings). -/
inductive JsVal where
  | jundef : JsVal
  | jnum : JNum → JsVal
  | jstr : String → JsVal
deriving DecidableEq

/-- JavaScript falsiness on numbers: NaN and zero are falsy. -/
def jsFalsy : JNum → Bool
  | JNum.nan => true
  | JNum.inf _ => false
  | JNum.fin q => jqIsZero q

/-- JavaScript `a || b` restricted to numbers (used for
`parseFloat(json.format.duration) || 1 / 24`). -/
def jsOrNum (a b : JNum) : JNum := if jsFalsy a then b else a

/-- JavaScript multiplication on `JNum`. -/
def jmul : JNum → JNum → JNum
  | JNum.nan, _ => JNum.nan
  | _, JNum.nan => JNum.nan
  | JNum.inf s, JNum.inf t => JNum.inf (s == t)
  | JNum.inf s, JNum.fin q => if jqIsZero q then JNum.nan else JNum.inf (s == jqIsPos q)
  | JNum.fin q, JNum.inf s => if jqIsZero q then JNum.nan else JNum.inf (s == jqIsPos q)
  | JNum.fin a, JNum.fin b => JNum.fin (jqMul a b)

/-- JavaScript division on `JNum`; a nonzero finite number divided by
(positive) zero yields a signed infinity, `0 / 0` yields NaN. -/
def jdiv : JNum → JNum → JNum
  | JNum.nan, _ => JNum.nan
  | _, JNum.nan => JNum.nan
  | JNum.inf _, JNum.inf _ => JNum.nan
  | JNum.inf s, JNum.fin q => JNum.inf (s == !jqIsNeg q)
  | JNum.fin _, JNum.inf _ => JNum.fin (jqInt 0)
  | JNum.fin a, JNum.fin b =>
    if jqIsZero b then (if jqIsZero a then JNum.nan else JNum.inf (jqIsPos a))
    else JNum.fin (jqDiv a b)

/-- JavaScript `Math.floor` on `JNum` (identity on NaN and infinities). -/
def jfloor : JNum → JNum
  | JNum.fin q => JNum.fin (jqInt (jqFloor q))
  | n => n

/-- Numeric value of a decimal digit character. -/
def digitToNat (c : Char) : ℕ := c.toNat - 48

/-- Consume a maximal run of decimal digits, returning the accumulated
value, the number of digits consumed, and the rest of the input. -/
def takeDigits : List Char → ℕ → ℕ → ℕ × ℕ × List Char
  | [], v, n => (v, n, [])
  | c :: cs, v, n =>
    if c.isDigit then takeDigits cs (10 * v + digitToNat c) (n + 1) else (v, n, c :: cs)

/-- Match a literal character sequence at the head of the input. -/
def dropLit : List Char → List Char → Option (List Char)
  | [], cs => some cs
  | _ :: _, [] => none
  | l :: ls, c :: cs => if c = l then dropLit ls cs else none

/-- Parse an unsigned decimal mantissa (`digits`, `digits.digits`,
`digits.`, `.digits`) at the head of the input, JavaScript style. -/
def parseMantissa (cs : List Char) : Option (JQ × List Char) :=
  let p1 := takeDigits cs 0 0
  match p1.2.2 with
  | '.' :: cs2 =>
    let p2 := takeDigits cs2 0 0
    if p1.2.1 + p2.2.1 = 0 then none
    else some (jqAdd (jqInt (p1.1 : ℤ)) (jqDiv (jqInt (p2.1 : ℤ)) (jqPow10 p2.2.1)), p2.2.2)
  | _ => if p1.2.1 = 0 then none else some (jqInt (p1.1 : ℤ), p1.2.2)

/-- Parse an optional well-formed exponent part (`e`/`E`, optional sign,
one or more digits); when the part is absent or malformed the exponent is
zero and the input is left untouched (JavaScript's longest-valid-prefix
rule for `parseFloat`). -/
def parseExpAt : List Char → ℤ × List Char
  | [] => (0, [])
  | c :: cs =>
    if c = 'e' ∨ c = 'E' then
      match cs with
      | '+' :: cs2 =>
        let p := takeDigits cs2 0 0
        if p.2.1 = 0 then (0, c :: cs) else ((p.1 : ℤ), p.2.2)
      | '-' :: cs2 =>
        let p := takeDigits cs2 0 0
        if p.2.1 = 0 then (0, c :: cs) else (-(p.1 : ℤ), p.2.2)
      | _ =>
        let p := takeDigits cs 0 0
        if p.2.1 = 0 then (0, c :: cs) else ((p.1 : ℤ), p.2.2)
    else (0, c :: cs)

/-- Scale a rational by a signed power of ten. -/
def applyExp (q : JQ) (e : ℤ) : JQ :=
  if 0 ≤ e then jqMul q (jqPow10 e.toNat) else jqDiv q (jqPow10 (-e).toNat)

/-- Parse a signed JavaScript numeric literal (decimal or `Infinity`) at
the head of the input, returning the value and the unconsumed rest.
Hexadecimal/octal/binary `Number` forms do not occur in ffprobe output
and are not modelled. -/
def parseNumAt (cs : List Char) : Option (JNum × List Char) :=
  let sp : Bool × List Char :=
    match cs with
    | '+' :: r => (false, r)
    | '-' :: r => (true, r)
    | _ => (false, cs)
  match dropLit "Infinity".toList sp.2 with
  | some r => some (JNum.inf (!sp.1), r)
  | none =>
    match parseMantissa sp.2 with
    | none => none
    | some mr =>
      let er := parseExpAt mr.2
      let v := applyExp mr.1 er.1
      some (JNum.fin (if sp.1 then jqNeg v else v), er.2)

/-- JavaScript `parseFloat`: skip leading whitespace, read the longest
valid numeric prefix, NaN when none exists. -/
def jsParseFloat (s : String) : JNum :=
  match parseNumAt (s.toList.dropWhile Char.isWhitespace) with
  | some p => p.1
  | none => JNum.nan

/-- Strip whitespace from both ends. -/
def trimWs (cs : List Char) : List Char :=
  ((cs.dropWhile Char.isWhitespace).reverse.dropWhile Char.isWhitespace).reverse

/-- JavaScript `Number(string)` coercion: trimmed empty string is `0`, a
fully-consumed numeric literal is its value, anything else is NaN. -/
def jsStringToNum (s : String) : JNum :=
  match trimWs s.toList with
  | [] => JNum.fin (jqInt 0)
  | cs =>
    match parseNumAt cs with
    | some (n, []) => n
    | _ => JNum.nan

/-- Decimal digits of the fractional part `r` (with `0 ≤ r < 1`),
produced by repeated multiplication by ten; `fuel` bounds the expansion
(the values rendered by the scanner are terminating decimals). -/
def fracDigits : ℕ → JQ → String
  | 0, _ => ""
  | Nat.succ fuel, r =>
    if jqIsZero r then ""
    else
      let r10 := jqMul r (jqInt 10)
      let d := jqFloor r10
      toString d.toNat ++ fracDigits fuel (jqSub r10 (jqInt d))

/-- Render a nonnegative finite JavaScript number. -/
def jsNumToStringPos (q : JQ) : String :=
  let ip := jqFloor q
  let fr := jqSub q (jqInt ip)
  if jqIsZero fr then toString ip else toString ip ++ "." ++ fracDigits 40 fr

/-- JavaScript number-to-string conversion on the modelled fragment. -/
def jsNumToString : JNum → String
  | JNum.nan => "NaN"
  | JNum.inf true => "Infinity"
  | JNum.inf false => "-Infinity"
  | JNum.fin q => if jqIsNeg q then "-" ++ jsNumToStringPos (jqNeg q) else jsNumToStringPos q

/-- Numeric coercion of a timebase cell (JavaScript `ToNumber`, as
applied by `*` and `/` to the cells of a split timebase). -/
def JsVal.toNum : JsVal → JNum
  | JsVal.jundef => JNum.nan
  | JsVal.jnum n => n
  | JsVal.jstr s => jsStringToNum s

/-- String conversion of a timebase cell (JavaScript template-literal
interpolation). -/
def JsVal.render : JsVal → String
  | JsVal.jundef => "undefined"
  | JsVal.jnum n => jsNumToString n
  | JsVal.jstr s => s

/-- JavaScript strict equality `v === 0`: true only for the number zero;
a string cell such as `'0'` is never strictly equal to the number `0`. -/
def JsVal.strictEqZero : JsVal → Bool
  | JsVal.jnum (JNum.fin q) => jqIsZero q
  | _ => false

/-- Left-pad a natural number with zeros to two digits. -/
def pad2 (n : ℕ) : String := if n < 10 then "0" ++ toString n else toString n

/-- Left-pad a natural number with zeros to four digits. -/
def pad4 (n : ℕ) : String :=
  if n < 10 then "000" ++ toString n
  else if n < 100 then "00" ++ toString n
  else if n < 1000 then "0" ++ toString n
  else toString n

/-- Proleptic-Gregorian civil date from a day count relative to
1970-01-01 (Hinnant's civil-from-days algorithm, with the branch making
truncated division act as floor division). -/
def civilFromDays (z0 : ℤ) : ℤ × ℕ × ℕ :=
  let z := z0 + 719468
  let era := (if 0 ≤ z then z else z - 146096) / 146097
  let doe := z - era * 146097
  let yoe := (doe - doe / 1460 + doe / 36524 - doe / 146096) / 365
  let y := yoe + era * 400
  let doy := doe - (365 * yoe + yoe / 4 - yoe / 100)
  let mp := (5 * doy + 2) / 153
  let d := doy - (153 * mp + 2) / 5 + 1
  let m := if mp < 10 then mp + 3 else mp - 9
  (if m ≤ 2 then y + 1 else y, m.toNat, d.toNat)

/-- The moment `YYYYMMDDHHmmss` format (with an optional literal `T`
between date and time, giving `YYYYMMDDTHHmmss`) applied to an epoch
timestamp in milliseconds.  The embedding fixes the process timezone to
UTC; `moment(t).format(...)` in the source uses the local timezone. -/
def momentFormat (withT : Bool) (ms : ℤ) : String :=
  let days := Int.fdiv ms 86400000
  let rem := ms - days * 86400000
  let ymd := civilFromDays days
  let hh := (rem / 3600000).toNat
  let mi := ((rem / 60000) % 60).toNat
  let ss := ((rem / 1000) % 60).toNat
  (if ymd.1 < 0 then "-" ++ pad4 (-ymd.1).toNat else pad4 ymd.1.toNat) ++
    pad2 ymd.2.1 ++ pad2 ymd.2.2 ++ (if withT then "T" else "") ++
    pad2 hh ++ pad2 mi ++ pad2 ss

/-- One ffprobe stream record, restricted to the fields the scanner
inspects (fields absent from the JSON are `none`); the remaining stream
attributes are copied through verbatim by `generateMediainfo` and carry
no logic. -/
structure FFStream where
  codec_type : Option String
  codec_time_base : Option String
  time_base : Option String
  avg_frame_rate : Option String
  r_frame_rate : Option String
deriving DecidableEq

/-- The ffprobe format record, restricted to the field the scanner's
logic inspects. -/
structure FFFormat where
  duration : Option String
deriving DecidableEq

/-- A parsed ffprobe JSON document (`-show_streams -show_format`). -/
structure FFProbeJson where
  streams : List FFStream
  format : FFFormat
deriving DecidableEq

/-- A CINF timebase as the source holds it: the two cells `tb[0]` and
`tb[1]` of a JavaScript array that is either a number pair or the string
array produced by `split('/')` (an out-of-range cell is `undefined`). -/
abbrev JsTb := JsVal × JsVal

/-- Split on a single-character separator, JavaScript
`String.prototype.split` semantics: the empty string yields `[""]`,
adjacent separators yield empty parts. -/
def jsSplitAux (sep : Char) : List Char → List Char → List String
  | [], cur => [String.mk cur.reverse]
  | c :: cs, cur =>
    if c = sep then String.mk cur.reverse :: jsSplitAux sep cs []
    else jsSplitAux sep cs (c :: cur)

/-- JavaScript `s.split(sep)` for a one-character separator. -/
def jsSplit (sep : Char) (s : String) : List String := jsSplitAux sep s.toList []

/-- JavaScript `s.startsWith(t)`. -/
def strStartsWith (s t : String) : Bool := t.toList.isPrefixOf s.toList

/-- JavaScript `field || dflt` for an optional string field: `undefined`
and the empty string fall back to the default. -/
def jsOrStrField : Option String → String → String
  | some s, dflt => if s = "" then dflt else s
  | none, dflt => dflt

/-- Cell `i` of a split-string array (`undefined` when out of range). -/
def tbCell (parts : List String) (i : ℕ) : JsVal :=
  match parts.get? i with
  | some s => JsVal.jstr s
  | none => JsVal.jundef

/-- `s.split('/')` viewed as a timebase: both cells are strings. -/
def splitTb (s : String) : JsTb :=
  let ps := jsSplit '/' s
  (tbCell ps 0, tbCell ps 1)

/-- `stream.avg_frame_rate || stream.r_frame_rate || ''` (strings are
falsy only when empty). -/
def frRateString (s : FFStream) : String :=
  jsOrStrField s.avg_frame_rate (jsOrStrField s.r_frame_rate "")

/-- The motion-video timebase derived from a video stream: the inverted
frame rate `[Number(fr[1]), Number(fr[0])]` when the frame-rate string
splits into exactly two parts, else the stream time-base split (with the
`'1/25'` fallback). -/
def deriveVideoTb (s : FFStream) : JsTb :=
  let fr := jsSplit '/' (frRateString s)
  if fr.length = 2 then
    (JsVal.jnum (jsStringToNum (fr.getD 1 "")), JsVal.jnum (jsStringToNum (fr.getD 0 "")))
  else splitTb (jsOrStrField s.time_base "1/25")

/-- The still-image sentinel timebase `[0, 1]` (a number pair). -/
def stillSentinelTb : JsTb := (JsVal.jnum (JNum.fin (jqInt 0)), JsVal.jnum (JNum.fin (jqInt 1)))

/-- Accumulator of the stream loop in `generateCinf`: the first audio,
motion-video and still timebases found so far. -/
structure TbAcc where
  audioTb : Option JsTb
  videoTb : Option JsTb
  stillTb : Option JsTb
deriving DecidableEq

/-- One iteration of the stream loop of `generateCinf` (lines 241-258):
each of the three slots is filled by the first stream of its kind. -/
def scanTbsStep (acc : TbAcc) (s : FFStream) : TbAcc :=
  if s.codec_type = some "audio" then
    if acc.audioTb.isNone then
      { acc with audioTb := some (splitTb (jsOrStrField s.time_base "1/25")) }
    else acc
  else if s.codec_type = some "video" then
    if s.codec_time_base = some "0/1" then
      if acc.stillTb.isNone then { acc with stillTb := some stillSentinelTb } else acc
    else
      if acc.videoTb.isNone then { acc with videoTb := some (deriveVideoTb s) } else acc
  else acc

/-- The stream loop of `generateCinf` over the whole stream list. -/
def scanTbs (l : List FFStream) : TbAcc :=
  l.foldl scanTbsStep ⟨none, none, none⟩

/-- Type token and timebase chosen by `generateCinf` (lines 260-271):
MOVIE when a motion-video timebase was found, else STILL when a still
timebase was found and no audio stream exists, else AUDIO with the audio
timebase (or `[0, 1]` when none was found). -/
def classify (l : List FFStream) : String × JsTb :=
  let acc := scanTbs l
  match acc.videoTb with
  | some tb => (" MOVIE ", tb)
  | none =>
    match acc.stillTb, acc.audioTb with
    | some tb, none => (" STILL ", tb)
    | _, _ => (" AUDIO ", acc.audioTb.getD stillSentinelTb)

/-- `parseFloat(json.format.duration) || 1 / 24` (line 235); a missing
field coerces to the string `'undefined'`, which parses to NaN. -/
def durSeconds (f : FFFormat) : JNum :=
  jsOrNum (match f.duration with | some s => jsParseFloat s | none => JNum.nan) (JNum.fin (jqNorm 1 24))

/-- The CINF frame-duration field (line 279):
`tb[0] === 0 ? 0 : Math.floor((dur * tb[1]) / tb[0])`. -/
def cinfFrames (tb : JsTb) (dur : JNum) : JNum :=
  if tb.1.strictEqZero then JNum.fin (jqInt 0)
  else jfloor (jdiv (jmul dur tb.2.toNum) tb.1.toNum)

/-- Wrap a string in double quotes. -/
def quoteStr (s : String) : String := "\"" ++ s ++ "\""

/-- The catalog document (`PouchDBMediaDocument`), with the fields the
scanner reads or writes; fields the source leaves `undefined` on the
placeholder are `Option`s. -/
structure MediaDoc where
  _id : String
  _rev : String
  mediaPath : String
  mediaSize : ℕ
  mediaTime : ℤ
  cinf : Option String
  tinf : Option String
  thumbSize : Option ℕ
  thumbTime : Option ℤ
  mediainfoFieldOrder : Option String
  mediainfoSet : Bool
  thumbAttachment : Option String
deriving DecidableEq

/-- `generateCinf` (lines 234-283).  `getIdF` stands for
`getId(config.paths.media, ·)` from src/util.ts, which is not part of
the shown sources and is passed as a parameter; `now` is the current
time used by `moment(undefined)` when `doc.thumbTime` was never set. -/
def generateCinf (getIdF : String → String) (doc : MediaDoc) (json : FFProbeJson)
    (now : ℤ) : String :=
  let dur := durSeconds json.format
  let tytb := classify json.streams
  String.intercalate " "
    [quoteStr (getIdF doc.mediaPath),
     tytb.1,
     toString doc.mediaSize,
     momentFormat false (doc.thumbTime.getD now),
     jsNumToString (cinfFrames tytb.2 dur),
     tytb.2.1.render ++ "/" ++ tytb.2.2.render] ++ "\r\n"

/-- Field-order classification from the idet counts (line 320):
progressive when both interlaced counts are at most ten, else by the
larger count, with ties going to `bff`. -/
def idetClassify (t b : ℕ) : String :=
  if t ≤ 10 ∧ b ≤ 10 then "progressive" else if t > b then "tff" else "bff"

/-- Require at least one whitespace character, then skip the run
(the regex `\s+` against a following token of a disjoint class). -/
def skipWs1 : List Char → Option (List Char)
  | [] => none
  | c :: cs => if c.isWhitespace then some (cs.dropWhile Char.isWhitespace) else none

/-- Require at least one decimal digit and read the run (`(\d+)` with
`parseInt` applied to the capture). -/
def readNat1 (cs : List Char) : Option (ℕ × List Char) :=
  let p := takeDigits cs 0 0
  if p.2.1 = 0 then none else some (p.1, p.2.2)

/-- Match the idet summary pattern
`Multi frame detection: TFF:\s+(\d+)\s+BFF:\s+(\d+)\s+Progressive:\s+(\d+)`
at the head of the input, returning the three captured counts. -/
def matchIdetAt (cs : List Char) : Option (ℕ × ℕ × ℕ) :=
  (dropLit "Multi frame detection: TFF:".toList cs).bind fun r1 =>
  (skipWs1 r1).bind fun r2 =>
  (readNat1 r2).bind fun pt =>
  (skipWs1 pt.2).bind fun r3 =>
  (dropLit "BFF:".toList r3).bind fun r4 =>
  (skipWs1 r4).bind fun r5 =>
  (readNat1 r5).bind fun pb =>
  (skipWs1 pb.2).bind fun r6 =>
  (dropLit "Progressive:".toList r6).bind fun r7 =>
  (skipWs1 r7).bind fun r8 =>
  (readNat1 r8).map fun pp => (pt.1, pb.1, pp.1)

/-- First match of the idet summary pattern anywhere in the input
(`RegExp.exec` over the tool's diagnostic output). -/
def scanIdet : List Char → Option (ℕ × ℕ × ℕ)
  | [] => matchIdetAt []
  | c :: rest =>
    match matchIdetAt (c :: rest) with
    | some r => some r
    | none => scanIdet rest

/-- Field order parsed from the tool's diagnostic output (lines 312-322):
`unknown` when the pattern is absent, else the idet classification of the
two captured interlaced counts. -/
def fieldOrderFromOut (out : String) : String :=
  match scanIdet out.toList with
  | none => "unknown"
  | some tbp => idetClassify tbp.1 tbp.2.1

/-- Scanner configuration bits the embedded logic branches on:
`config.metadata !== null` and `config.metadata.fieldOrder`. -/
structure ScannerConfig where
  metadataEnabled : Bool
  fieldOrderEnabled : Bool
deriving DecidableEq

/-- The field-order promise of `generateMediainfo` (lines 286-324):
resolves `'unknown'` immediately when detection is disabled; otherwise
the ffmpeg idet invocation either rejects (`Except.error`) or yields
diagnostic output that is pattern-matched and classified. -/
def fieldOrderDetect (cfg : ScannerConfig) (idetRes : Except Unit String) :
    Except Unit String :=
  if !cfg.fieldOrderEnabled then Except.ok "unknown"
  else
    match idetRes with
    | Except.error e => Except.error e
    | Except.ok out => Except.ok (fieldOrderFromOut out)

/-- The stat snapshot carried by an add/change event
(`fs.Stats`, restricted to the members the scanner reads). -/
structure FileStat where
  size : ℕ
  mtimeMs : ℤ
  isDir : Bool
deriving DecidableEq

/-- Outcome of the externals driven by `generateThumb` (lines 157-196),
by failure point: the ffmpeg invocation may reject, the stat of the
temporary file may reject, the read of the produced file may reject
after the thumbnail stat fields were already assigned, or everything
succeeds with the produced bytes. -/
inductive ThumbOutcome where
  | execFail : ThumbOutcome
  | statFail : ThumbOutcome
  | readFail : ℕ → ℤ → ThumbOutcome
  | ok : ℕ → ℤ → String → ThumbOutcome
deriving DecidableEq

/-- Outcome of the ffprobe invocation driven by `generateInfo`
(lines 199-223): rejection, or the parsed JSON document. -/
inductive InfoExec where
  | fail : InfoExec
  | ok : FFProbeJson → InfoExec
deriving DecidableEq

/-- The TINF record written by `generateThumb` (lines 181-187): quoted
id, thumbnail mtime as `YYYYMMDDTHHmmss`, thumbnail byte size,
space-joined and CRLF-terminated. -/
def generateTinfStr (getIdF : String → String) (doc : MediaDoc) (size : ℕ)
    (mtime : ℤ) : String :=
  String.intercalate " "
    [quoteStr (getIdF doc.mediaPath), momentFormat true mtime, toString size] ++ "\r\n"

/-- Effect of `generateThumb` on the document, by outcome: mutations
happen in source order, so a failing read still leaves the thumbnail
stat fields and the TINF record assigned. -/
def applyGenerateThumb (getIdF : String → String) (res : ThumbOutcome)
    (doc : MediaDoc) : MediaDoc :=
  match res with
  | ThumbOutcome.execFail => doc
  | ThumbOutcome.statFail => doc
  | ThumbOutcome.readFail size mtime =>
    { doc with thumbSize := some size, thumbTime := some mtime,
               tinf := some (generateTinfStr getIdF doc size mtime) }
  | ThumbOutcome.ok size mtime bytes =>
    { doc with thumbSize := some size, thumbTime := some mtime,
               tinf := some (generateTinfStr getIdF doc size mtime),
               thumbAttachment := some bytes }

/-- Effect of `generateInfo` (lines 198-230) on the document: a rejected
or streamless probe leaves the document untouched; otherwise `cinf` is
assigned, and then, when metadata is enabled, `mediainfo` is assigned
unless the field-order detection rejects (a rejection at that point
leaves `cinf` assigned but `mediainfo` unchanged, as in the source). -/
def applyGenerateInfo (cfg : ScannerConfig) (getIdF : String → String)
    (infoExec : InfoExec) (idetRes : Except Unit String) (now : ℤ)
    (doc : MediaDoc) : MediaDoc :=
  match infoExec with
  | InfoExec.fail => doc
  | InfoExec.ok json =>
    if json.streams.isEmpty then doc
    else
      let doc2 := { doc with cinf := some (generateCinf getIdF doc json now) }
      if cfg.metadataEnabled then
        match fieldOrderDetect cfg idetRes with
        | Except.error _ => doc2
        | Except.ok fo => { doc2 with mediainfoFieldOrder := some fo, mediainfoSet := true }
      else doc2

/-- The placeholder document `db.get` falls back to on a lookup miss
(line 121). -/
def emptyDocFor (mediaId : String) : MediaDoc :=
  ⟨mediaId, "0", "", 0, 0, none, none, none, none, none, false, none⟩

/-- Result of one `scanFile` run (lines 114-155), by control path. -/
inductive ScanResult where
  | ignored : ScanResult
  | skippedCollision : ScanResult
  | unchanged : ScanResult
  | written : MediaDoc → ScanResult
deriving DecidableEq

/-- `scanFile` (lines 114-155).  The two probe branches of the
`Promise.all` write disjoint document fields; the embedding applies the
info effect and then the thumb effect (the only cross-read, the
`doc.thumbTime` read inside `generateCinf`, races in the source and here
observes the pre-thumbnail value). -/
def scanFile (cfg : ScannerConfig) (getIdF : String → String)
    (mediaPath mediaId : String) (mediaStat : FileStat)
    (fetched : Option MediaDoc) (infoExec : InfoExec)
    (idetRes : Except Unit String) (thumbRes : ThumbOutcome) (now : ℤ) :
    ScanResult :=
  if mediaId = "" ∨ mediaStat.isDir then ScanResult.ignored
  else
    let doc := fetched.getD (emptyDocFor mediaId)
    if doc.mediaPath ≠ "" ∧ doc.mediaPath ≠ mediaPath then ScanResult.skippedCollision
    else if doc.mediaSize = mediaStat.size ∧ doc.mediaTime = mediaStat.mtimeMs then
      ScanResult.unchanged
    else
      let doc2 := { doc with mediaPath := mediaPath, mediaSize := mediaStat.size,
                             mediaTime := mediaStat.mtimeMs }
      let doc3 := applyGenerateInfo cfg getIdF infoExec idetRes now doc2
      let doc4 := applyGenerateThumb getIdF thumbRes doc3
      ScanResult.written doc4

/-- The document put by a scan run, when any. -/
def writtenOf : ScanResult → Option MediaDoc
  | ScanResult.written d => some d
  | _ => none

/-- The catalog, as the association of ids to documents. -/
abbrev Catalog := List (String × MediaDoc)

/-- Catalog lookup by id. -/
def catGet (cat : Catalog) (mediaId : String) : Option MediaDoc :=
  (cat.find? (fun p => p.1 == mediaId)).map (fun p => p.2)

/-- Catalog upsert of a document under its own id. -/
def catPut (cat : Catalog) (d : MediaDoc) : Catalog :=
  if cat.any (fun p => p.1 == d._id) then
    cat.map (fun p => if p.1 == d._id then (p.1, d) else p)
  else cat ++ [(d._id, d)]

/-- Catalog removal by id. -/
def catRemove (cat : Catalog) (mediaId : String) : Catalog :=
  cat.filter (fun p => p.1 != mediaId)

/-- The per-path oracles a run of the event pipeline observes: the id
derivation (src/util.ts, not part of the shown sources), the current
time, and the outcome of each external invocation keyed by path. -/
structure EventEnv where
  cfg : ScannerConfig
  getIdF : String → String
  now : ℤ
  infoExecOf : String → InfoExec
  idetOf : String → Except Unit String
  thumbOf : String → ThumbOutcome

/-- One watcher event: a path, with a stat snapshot for add/change and
`none` for unlink. -/
abbrev FsEvent := String × Option FileStat

/-- Effect of one event on the catalog, before the `try/catch` of the
event handler (lines 45-56): an unlink of an unknown id rejects inside
`db.get` (the error the outer catch absorbs); an add/change runs
`scanFile` and puts the written document, if any. -/
def processEvent (env : EventEnv) (cat : Catalog) (ev : FsEvent) :
    Except Unit Catalog :=
  let mediaId := env.getIdF ev.1
  match ev.2 with
  | none =>
    match catGet cat mediaId with
    | none => Except.error ()
    | some _ => Except.ok (catRemove cat mediaId)
  | some st =>
    match scanFile env.cfg env.getIdF ev.1 mediaId st (catGet cat mediaId)
        (env.infoExecOf ev.1) (env.idetOf ev.1) (env.thumbOf ev.1) env.now with
    | ScanResult.written d => Except.ok (catPut cat d)
    | _ => Except.ok cat

/-- The `try/catch` of the event handler: an error is logged and leaves
the catalog as it was. -/
def processEventCaught (env : EventEnv) (cat : Catalog) (ev : FsEvent) : Catalog :=
  match processEvent env cat ev with
  | Except.ok c => c
  | Except.error _ => cat

/-- The event pipeline: `concatMap` with an async body serializes the
stream, so the events are processed strictly one at a time in arrival
order (rxjs semantics, spec section 4.2); the pipeline is the fold of
the caught per-event effect. -/
def runPipeline (env : EventEnv) (cat : Catalog) (evs : List FsEvent) : Catalog :=
  evs.foldl (processEventCaught env) cat

/-- A catalog row as the sweep sees it (`allDocs` with `include_docs`),
restricted to the fields `cleanDeleted` reads; ids are taken in an
arbitrary linear order standing for the store's key collation. -/
structure SweepDoc (α : Type) where
  _id : α
  _rev : String
  mediaPath : String
deriving DecidableEq

/-- The sweep's page size (line 63). -/
def sweepLimit : ℕ := 256

/-- The rows at or after the cursor, in key order (`allDocs` with an
inclusive `startkey`; `none` is the start of the catalog). -/
def sweepPending {α : Type} [LinearOrder α] (db : List (SweepDoc α)) :
    Option α → List (SweepDoc α)
  | none => db
  | some k => db.filter (fun d => decide (k ≤ d._id))

/-- One `allDocs` page (lines 70-74). -/
def sweepPage {α : Type} [LinearOrder α] (db : List (SweepDoc α))
    (sk : Option α) : List (SweepDoc α) :=
  (sweepPending db sk).take sweepLimit

/-- The per-row survival test of the sweep (lines 78-89): the row is kept
exactly when its normalized path starts with the normalized scan root
AND the stat succeeds AND reports a regular file.  A row whose path lies
outside the root falls through to the `deleted.push` without being
statted.  `norm` stands for `path.normalize`, `stat` for `fs.stat`
(`none` is a rejection, `some b` a stat whose `isFile()` is `b`). -/
def sweepKeep {α : Type} (norm : String → String) (root : String)
    (stat : String → Option Bool) (d : SweepDoc α) : Bool :=
  strStartsWith (norm d.mediaPath) (norm root) &&
    (match stat d.mediaPath with
     | some isFile => isFile
     | none => false)

/-- The rows of a page the sweep actually stats: those whose normalized
path starts with the normalized root. -/
def sweepStatted {α : Type} (norm : String → String) (root : String)
    (rows : List (SweepDoc α)) : List (SweepDoc α) :=
  rows.filter (fun d => strStartsWith (norm d.mediaPath) (norm root))

/-- The batched delete of one page (lines 91-102): the ids of the rows
failing the survival test.  The source accumulates them in
`Promise.all` completion order; the embedding uses row order, which only
fixes the ordering of the same set. -/
def sweepPageDeleted {α : Type} (keep : SweepDoc α → Bool)
    (rows : List (SweepDoc α)) : List α :=
  (rows.filter (fun d => !(keep d))).map (fun d => d._id)

/-- The catalog after the batched delete of one page. -/
def sweepAfterPage {α : Type} [LinearOrder α] [DecidableEq α]
    (keep : SweepDoc α → Bool) (db : List (SweepDoc α)) (sk : Option α) :
    List (SweepDoc α) :=
  let delIds := sweepPageDeleted keep (sweepPage db sk)
  db.filter (fun d => !(delIds.contains d._id))

/-- The pagination loop of `cleanDeleted` (lines 67-108): fetch a page,
bulk-delete the rows failing the survival test, stop when the page was
short, else continue from the id of the last row of the page (an
inclusive cursor).  `fuel` bounds the iteration count; the accumulated
result is the list of deleted ids. -/
def sweepLoop {α : Type} [LinearOrder α] [DecidableEq α]
    (keep : SweepDoc α → Bool) :
    ℕ → List (SweepDoc α) → Option α → List α → List α
  | 0, _, _, acc => acc
  | Nat.succ fuel, db, sk, acc =>
    let rows := sweepPage db sk
    let acc2 := acc ++ sweepPageDeleted keep rows
    if rows.length < sweepLimit then acc2
    else
      match rows.getLast? with
      | none => acc2
      | some last => sweepLoop keep fuel (sweepAfterPage keep db sk) (some last._id) acc2

/-- `cleanDeleted` (lines 60-111): one full sweep pass over the catalog,
started from the beginning with enough fuel to terminate. -/
def cleanDeleted {α : Type} [LinearOrder α] [DecidableEq α]
    (keep : SweepDoc α → Bool) (db : List (SweepDoc α)) : List α :=
  sweepLoop keep (db.length + 1) db none []

/-- Spec-side: the first audio stream of the probe output. -/
def firstAudioStream (l : List FFStream) : Option FFStream :=
  l.find? (fun s => decide (s.codec_type = some "audio"))

/-- Spec-side: the first video stream whose codec time-base is not the
still sentinel `0/1`. -/
def firstMotionStream (l : List FFStream) : Option FFStream :=
  l.find? (fun s => decide (s.codec_type = some "video" ∧ s.codec_time_base ≠ some "0/1"))

/-- Spec-side: the first video stream whose codec time-base is the still
sentinel `0/1`. -/
def firstStillStream (l : List FFStream) : Option FFStream :=
  l.find? (fun s => decide (s.codec_type = some "video" ∧ s.codec_time_base = some "0/1"))

/-- The audio timebase of a stream: its time-base string split on `/`,
with the `'1/25'` fallback. -/
def audioTbOf (s : FFStream) : JsTb := splitTb (jsOrStrField s.time_base "1/25")

/-- First-defined choice between two options. -/
def optFirst {χ : Type} (a b : Option χ) : Option χ :=
  match a with
  | some x => some x
  | none => b

/-- Spec-side classification, following the spec's words: MOVIE with the
motion timebase of the first non-still video stream when one exists,
else STILL with `[0, 1]` when a still video stream exists and no audio
stream does, else AUDIO with the first audio stream's timebase (or
`[0, 1]` when there is no audio stream). -/
def classifySpec (l : List FFStream) : String × JsTb :=
  match (firstMotionStream l).map deriveVideoTb with
  | some tb => (" MOVIE ", tb)
  | none =>
    match firstStillStream l, firstAudioStream l with
    | some _, none => (" STILL ", stillSentinelTb)
    | _, _ => (" AUDIO ", ((firstAudioStream l).map audioTbOf).getD stillSentinelTb)

/-- Spec-side duration (claim C7's words): the probe's parsed format
duration, falling back to `1/24` only when the probe reports no
parseable duration. -/
def specDurSeconds (f : FFFormat) : JQ :=
  match f.duration with
  | none => jqNorm 1 24
  | some s =>
    match jsParseFloat s with
    | JNum.fin q => q
    | _ => jqNorm 1 24

/-- Spec-side frame-duration (claim C7's words): `0` when the chosen
timebase numerator is `0`, else the floor of
`duration_seconds * den / num`. -/
def specFrameDur (num den durS : JQ) : JQ :=
  if jqIsZero num then jqInt 0 else jqInt (jqFloor (jqDiv (jqMul durS den) num))

/-- Amended duration reading: the parsed format duration, falling back
to `1/24` when the duration is missing, unparseable, or parses to a
falsy number (zero). -/
def durSecondsSpec (f : FFFormat) : JNum :=
  match f.duration with
  | none => JNum.fin (jqNorm 1 24)
  | some s =>
    match jsParseFloat s with
    | JNum.nan => JNum.fin (jqNorm 1 24)
    | JNum.inf b => JNum.inf b
    | JNum.fin q => if jqIsZero q then JNum.fin (jqNorm 1 24) else JNum.fin q

/-- Example video stream: frame rate `25/1`, a motion codec time-base. -/
def movieStreamEx : FFStream := ⟨some "video", some "1/50", some "1/25", some "25/1", none⟩

/-- Example audio stream with time-base `1/48000`. -/
def audioStreamEx : FFStream := ⟨some "audio", none, some "1/48000", none, none⟩

/-- Example still-image video stream (codec time-base `0/1`). -/
def stillStreamEx : FFStream := ⟨some "video", some "0/1", some "1/25", none, none⟩

/-- Probe output for the CINF determinism check: one motion video
stream, format duration two seconds. -/
def probeJsonEx : FFProbeJson := ⟨[movieStreamEx], ⟨some "2"⟩⟩

/-- Catalog document for the CINF determinism check: id `CLIP`, media
size `1000`, thumbnail timestamp epoch `0`. -/
def clipDocEx : MediaDoc :=
  ⟨"CLIP", "1", "/media/CLIP.mov", 1000, 5, none, none, none, some 0, none, false, none⟩

/-- The CINF record the source produces at the fixed inputs of the
determinism check. -/
def cinfExpectedEx : String := "\"CLIP\"  MOVIE  1000 19700101000000 50 1/25\r\n"

/-- The single-spaced CINF string the spec predicts at those inputs. -/
def cinfClaimedEx : String := "\"CLIP\" MOVIE 1000 19700101000000 50 1/25\r\n"

/-- Sortedness of a sweep catalog: ids strictly increasing (the order of
an `allDocs` listing with unique keys). -/
abbrev SweepSorted {α : Type} [LinearOrder α] (db : List (SweepDoc α)) : Prop :=
  db.Pairwise (fun a b => a._id < b._id)

/-- Sweep fixture: a catalog of one entry whose path lies outside the
scan root and whose file exists as a regular file. -/
def sweepDbOutside : List (SweepDoc ℕ) := [⟨0, "1-a", "/elsewhere/clip.mov"⟩]

/-- Sweep fixture: 257 entries (one more than a page); the 256th file is
gone, the rest exist. -/
def sweepDbBig : List (SweepDoc ℕ) :=
  (List.range 257).map (fun i => ⟨i, "1-a", if i = 255 then "gone" else "here"⟩)

/-- Sweep fixture: 257 entries whose files all exist. -/
def sweepDbAll : List (SweepDoc ℕ) :=
  (List.range 257).map (fun i => ⟨i, "1-a", "here"⟩)

/-- Stat oracle for the big sweep fixtures: the path `gone` rejects,
every other path is a regular file. -/
def sweepStatBig : String → Option Bool := fun p => if p = "gone" then none else some true

/-- Survival test for the big sweep fixtures: scan root is the empty
string (every path is under it), normalization is the identity. -/
def sweepKeepBig : SweepDoc ℕ → Bool := sweepKeep (fun s => s) "" sweepStatBig

/-- Event-pipeline fixture: every external invocation fails. -/
def envNoProbes : EventEnv :=
  ⟨⟨false, false⟩, (fun p => p), 0, (fun _ => InfoExec.fail), (fun _ => Except.error ()),
    (fun _ => ThumbOutcome.execFail)⟩

/-- Event-pipeline fixture events: an unlink of an unknown path (whose
lookup rejects) followed by an add. -/
def evUnlinkEx : FsEvent := ("/m/gone.mov", none)

/-- An add event fixture. -/
def evAddEx : FsEvent := ("/m/new.mov", some ⟨5, 3, false⟩)

/-- Example idet diagnostic output with TFF count 50 and BFF count 2. -/
def idetOutEx : String :=
  "[Parsed_idet_0] Multi frame detection: TFF:    50 BFF:     2 Progressive:  1000"

/-- Sweep fixture: three entries, one under the root with a live file,
one outside the root, one under the root whose stat rejects. -/
def sweepDbSmall : List (SweepDoc ℕ) :=
  [⟨0, "1-a", "/media/a.mov"⟩, ⟨1, "1-a", "/other/b.mov"⟩, ⟨2, "1-a", "/media/c.mov"⟩]

/-- Stat oracle for the small sweep fixture: only `/media/a.mov`
exists. -/
def sweepStatSmall : String → Option Bool :=
  fun p => if p = "/media/a.mov" then some true else none

/-- Helper: first-defined choice is associative. -/
theorem optFirst_assoc {χ : Type} (a b c : Option χ) :
    optFirst (optFirst a b) c = optFirst a (optFirst b c) := by
  cases a <;> rfl

/-- Helper: `none` is a right unit of first-defined choice. -/
theorem optFirst_none {χ : Type} (a : Option χ) : optFirst a none = a := by
  cases a <;> rfl

/-- Helper: the stream loop of `generateCinf`, started from any partial
accumulator, fills each slot with the accumulator's value or else the
first stream of the matching kind. -/
theorem scanTbs_foldl (l : List FFStream) : ∀ acc : TbAcc,
    l.foldl scanTbsStep acc =
      ⟨optFirst acc.audioTb ((firstAudioStream l).map audioTbOf),
       optFirst acc.videoTb ((firstMotionStream l).map deriveVideoTb),
       optFirst acc.stillTb ((firstStillStream l).map (fun _ => stillSentinelTb))⟩ := by
  induction l with
  | nil =>
    intro acc
    simp [firstAudioStream, firstMotionStream, firstStillStream, optFirst_none]
  | cons s rest ih =>
    intro acc
    rw [List.foldl_cons, ih (scanTbsStep acc s)]
    simp only [firstAudioStream, firstMotionStream, firstStillStream]
    by_cases ha : s.codec_type = some "audio"
    · have hv : ¬s.codec_type = some "video" := by rw [ha]; simp
      rw [List.find?_cons_of_pos _ (by simp [ha]),
          List.find?_cons_of_neg _ (by simp [hv]),
          List.find?_cons_of_neg _ (by simp [hv])]
      cases hacc : acc.audioTb with
      | none => simp [scanTbsStep, ha, hv, hacc, optFirst, audioTbOf]
      | some x => simp [scanTbsStep, ha, hv, hacc, optFirst]
    · by_cases hvv : s.codec_type = some "video"
      · by_cases hc : s.codec_time_base = some "0/1"
        · rw [List.find?_cons_of_neg _ (by simp [ha]),
              List.find?_cons_of_neg _ (by simp [hc]),
              List.find?_cons_of_pos _ (by simp [hvv, hc])]
          cases hacc : acc.stillTb with
          | none => simp [scanTbsStep, ha, hvv, hc, hacc, optFirst]
          | some x => simp [scanTbsStep, ha, hvv, hc, hacc, optFirst]
        · rw [List.find?_cons_of_neg _ (by simp [ha]),
              List.find?_cons_of_pos _ (by simp [hvv, hc]),
              List.find?_cons_of_neg _ (by simp [hc])]
          cases hacc : acc.videoTb with
          | none => simp [scanTbsStep, ha, hvv, hc, hacc, optFirst]
          | some x => simp [scanTbsStep, ha, hvv, hc, hacc, optFirst]
      · rw [List.find?_cons_of_neg _ (by simp [ha]),
            List.find?_cons_of_neg _ (by simp [hvv]),
            List.find?_cons_of_neg _ (by simp [hvv])]
        simp [scanTbsStep, ha, hvv]

/-- Helper: `none` is a left zero of first-defined choice. -/
theorem optFirst_none_left {χ : Type} (b : Option χ) : optFirst none b = b := rfl

/-- C1 (counterexample): at the fixed inputs (id `CLIP`, size 1000,
thumbnail time epoch 0, probe duration 2 s with frame rate 25/1, so
frame-duration 50 and timebase 1/25) the CINF generator does NOT return
the single-spaced string the claim names: the `join(' ')` adds one space
between fields while the 7-character type token carries its own padding
spaces, so two spaces surround the type token. -/
theorem cinf_fixed_input_not_single_spaced :
    generateCinf (fun _ => "CLIP") clipDocEx probeJsonEx 0 ≠ cinfClaimedEx := by decide

/-- C1 (amended): at those fixed inputs the CINF generator returns
exactly `"CLIP"  MOVIE  1000 19700101000000 50 1/25` followed by CRLF:
the fields are single-space-joined in the fixed order (quoted id,
7-character padded type token, media size, thumbnail timestamp
`YYYYMMDDHHmmss`, frame-duration, `num/den` timebase), the type token
containing its own leading and trailing padding space. -/
theorem cinf_fixed_input_exact_record :
    generateCinf (fun _ => "CLIP") clipDocEx probeJsonEx 0 = cinfExpectedEx := by decide

/-- C3: the type/timebase inference follows the claimed precedence over
first-matching streams: MOVIE with the motion timebase (frame rate
inverted, e.g. 25/1 with an audio stream gives MOVIE with timebase
1/25), else STILL with `[0,1]` when a still video stream exists and no
audio stream does, else AUDIO with the first audio stream's timebase or
`[0,1]` when no audio stream exists. -/
theorem classify_stream_precedence :
    (∀ l : List FFStream, classify l = classifySpec l) ∧
    classify [movieStreamEx, audioStreamEx] =
      (" MOVIE ", (JsVal.jnum (JNum.fin (jqInt 1)), JsVal.jnum (JNum.fin (jqInt 25)))) ∧
    classify [stillStreamEx] = (" STILL ", stillSentinelTb) ∧
    classify [audioStreamEx] = (" AUDIO ", (JsVal.jstr "1", JsVal.jstr "48000")) := by
  refine ⟨?_, by decide, by decide, by decide⟩
  intro l
  unfold classify classifySpec scanTbs
  rw [scanTbs_foldl]
  cases hm : firstMotionStream l with
  | some m => simp [hm, optFirst_none_left]
  | none =>
    cases hs : firstStillStream l with
    | some st2 =>
      cases ha : firstAudioStream l with
      | none => simp [hm, hs, ha, optFirst_none_left]
      | some a => simp [hm, hs, ha, optFirst_none_left]
    | none =>
      cases ha : firstAudioStream l with
      | none => simp [hm, hs, ha, optFirst_none_left]
      | some a => simp [hm, hs, ha, optFirst_none_left]

/-- C7 (counterexample): the probe output with one motion video stream
(frame rate 25/1, chosen timebase 1/25) and format duration `"0"` has a
parseable duration, so the claim's formula gives
`floor(0 * 25 / 1) = 0`, but the code's `|| 1/24` fallback also fires on
the falsy parsed value `0` and yields `floor((1/24) * 25 / 1) = 1`. -/
theorem cinf_frames_claim_counterexample :
    jsParseFloat "0" = JNum.fin (jqInt 0) ∧
    (classify [movieStreamEx]).2 =
      (JsVal.jnum (JNum.fin (jqInt 1)), JsVal.jnum (JNum.fin (jqInt 25))) ∧
    specFrameDur (jqInt 1) (jqInt 25) (specDurSeconds ⟨some "0"⟩) = jqInt 0 ∧
    cinfFrames (classify [movieStreamEx]).2 (durSeconds ⟨some "0"⟩) = JNum.fin (jqInt 1) := by
  decide

/-- C7 (amended): the CINF frame-duration equals 0 exactly when the
chosen timebase's numerator cell is the number 0; when the numerator
cell coerces to a nonzero number `a` and the denominator cell to `b`,
it is `floor(dur * b / a)`; a numerator cell that is a string coercing
to 0 (such as `'0'` from a split time-base, which is not strictly equal
to the number 0) instead produces Infinity when `dur * b` is positive;
and the duration falls back to `1/24` when the probe duration is
missing, unparseable, or parses to the falsy value 0. -/
theorem cinf_frames_amended :
    ∀ (f : FFFormat) (tb : JsTb) (a b d : JQ),
      (durSeconds f = durSecondsSpec f) ∧
      (tb.1.strictEqZero = true → cinfFrames tb (durSeconds f) = JNum.fin (jqInt 0)) ∧
      (tb.1.toNum = JNum.fin a → jqIsZero a = false → tb.2.toNum = JNum.fin b →
        durSeconds f = JNum.fin d →
        cinfFrames tb (durSeconds f) = JNum.fin (jqInt (jqFloor (jqDiv (jqMul d b) a)))) ∧
      (tb.1.toNum = JNum.fin a → jqIsZero a = true → tb.1.strictEqZero = false →
        tb.2.toNum = JNum.fin b → durSeconds f = JNum.fin d →
        jqIsPos (jqMul d b) = true →
        cinfFrames tb (durSeconds f) = JNum.inf true) := by
  intro f tb a b d
  refine ⟨?_, ?_, ?_, ?_⟩
  · unfold durSeconds durSecondsSpec
    cases hd : f.duration with
    | none => rfl
    | some s =>
      cases hp : jsParseFloat s with
      | nan => simp [jsOrNum, jsFalsy, hp]
      | inf bb => simp [jsOrNum, jsFalsy, hp]
      | fin q =>
        by_cases hq : jqIsZero q = true
        · simp [jsOrNum, jsFalsy, hp, hq]
        · simp [jsOrNum, jsFalsy, hp, hq]
  · intro hz
    unfold cinfFrames
    rw [hz]
    rfl
  · intro h1 h2 h3 h4
    have hz : tb.1.strictEqZero = false := by
      cases htb : tb.1 with
      | jundef => rw [htb] at h1; exact absurd h1 (by simp [JsVal.toNum])
      | jstr s => rfl
      | jnum n =>
        rw [htb] at h1
        cases n with
        | nan => exact absurd h1 (by simp [JsVal.toNum])
        | inf bb => exact absurd h1 (by simp [JsVal.toNum])
        | fin q =>
          have : q = a := by simpa [JsVal.toNum] using h1
          simp [JsVal.strictEqZero, this, h2]
    unfold cinfFrames
    rw [hz, h4, h1, h3]
    simp [jmul, jdiv, h2, jfloor]
  · intro h1 h2 hz h3 h4 h5
    have hnz : jqIsZero (jqMul d b) = false := by
      simp only [jqIsPos, decide_eq_true_eq] at h5
      simp only [jqIsZero, beq_eq_false_iff_ne, ne_eq]
      omega
    unfold cinfFrames
    rw [hz, h4, h1, h3]
    simp [jmul, jdiv, h2, hnz, h5, jfloor]

/-- Witness for the amended C7 theorem at concrete inputs: duration 7 s;
a number-0 numerator gives 0 frames, string cells `'1'`/`'25'` give
`floor(7 * 25 / 1)`, and a string-`'0'` numerator gives Infinity. -/
theorem cinf_frames_amended_witness :
    cinfFrames stillSentinelTb (durSeconds ⟨some "7"⟩) = JNum.fin (jqInt 0) ∧
    cinfFrames (JsVal.jstr "1", JsVal.jstr "25") (durSeconds ⟨some "7"⟩) =
      JNum.fin (jqInt (jqFloor (jqDiv (jqMul (jqInt 7) (jqInt 25)) (jqInt 1)))) ∧
    cinfFrames (JsVal.jstr "0", JsVal.jstr "25") (durSeconds ⟨some "7"⟩) = JNum.inf true := by
  refine ⟨?_, ?_, ?_⟩
  · exact (cinf_frames_amended ⟨some "7"⟩ stillSentinelTb (jqInt 0) (jqInt 1) (jqInt 7)).2.1
      (by decide)
  · exact (cinf_frames_amended ⟨some "7"⟩ (JsVal.jstr "1", JsVal.jstr "25") (jqInt 1) (jqInt 25)
      (jqInt 7)).2.2.1 (by decide) (by decide) (by decide) (by decide)
  · exact (cinf_frames_amended ⟨some "7"⟩ (JsVal.jstr "0", JsVal.jstr "25") (jqInt 0) (jqInt 25)
      (jqInt 7)).2.2.2 (by decide) (by decide) (by decide) (by decide) (by decide) (by decide)

/-- C8: field-order detection returns `unknown` when detection is
disabled or the idet pattern is absent from the tool output, classifies
`progressive` when both interlaced counts are at most 10, and otherwise
returns `tff` or `bff` by the larger count (e.g. TFF 50 / BFF 2 gives
`tff`). -/
theorem fieldOrder_classification :
    ∀ (cfg : ScannerConfig) (out : String) (t b p : ℕ),
      (cfg.fieldOrderEnabled = false → fieldOrderDetect cfg (Except.ok out) = Except.ok "unknown") ∧
      (cfg.fieldOrderEnabled = false →
        fieldOrderDetect cfg (Except.error ()) = Except.ok "unknown") ∧
      (cfg.fieldOrderEnabled = true →
        fieldOrderDetect cfg (Except.ok out) = Except.ok (fieldOrderFromOut out)) ∧
      (scanIdet out.toList = none → fieldOrderFromOut out = "unknown") ∧
      (scanIdet out.toList = some (t, b, p) → t ≤ 10 → b ≤ 10 →
        fieldOrderFromOut out = "progressive") ∧
      (scanIdet out.toList = some (t, b, p) → ¬(t ≤ 10 ∧ b ≤ 10) → b < t →
        fieldOrderFromOut out = "tff") ∧
      (scanIdet out.toList = some (t, b, p) → ¬(t ≤ 10 ∧ b ≤ 10) → t < b →
        fieldOrderFromOut out = "bff") ∧
      fieldOrderFromOut idetOutEx = "tff" := by
  intro cfg out t b p
  refine ⟨?_, ?_, ?_, ?_, ?_, ?_, ?_, by decide⟩
  · intro h; simp [fieldOrderDetect, h]
  · intro h; simp [fieldOrderDetect, h]
  · intro h; simp [fieldOrderDetect, h]
  · intro h; simp only [String.toList] at h; simp [fieldOrderFromOut, h]
  · intro h h1 h2
    simp only [String.toList] at h
    simp [fieldOrderFromOut, h, idetClassify, h1, h2]
  · intro h hno hlt
    simp only [String.toList] at h
    simp only [fieldOrderFromOut, String.toList, h, idetClassify]
    rw [if_neg hno, if_pos (by omega)]
  · intro h hno hlt
    simp only [String.toList] at h
    simp only [fieldOrderFromOut, String.toList, h, idetClassify]
    rw [if_neg hno, if_neg (by omega)]

/-- Witness for the field-order theorem at concrete outputs covering
each hypothesis: disabled, no match, progressive, larger-TFF and
larger-BFF cases. -/
theorem fieldOrder_classification_witness :
    fieldOrderDetect ⟨true, false⟩ (Except.ok "zzz") = Except.ok "unknown" ∧
    fieldOrderFromOut "zzz" = "unknown" ∧
    fieldOrderFromOut "Multi frame detection: TFF: 3 BFF: 4 Progressive: 9" = "progressive" ∧
    fieldOrderFromOut idetOutEx = "tff" ∧
    fieldOrderFromOut "Multi frame detection: TFF: 11 BFF: 40 Progressive: 9" = "bff" := by
  refine ⟨?_, ?_, ?_, ?_, ?_⟩
  · exact (fieldOrder_classification ⟨true, false⟩ "zzz" 0 0 0).1 (by decide)
  · exact (fieldOrder_classification ⟨true, false⟩ "zzz" 0 0 0).2.2.2.1 (by decide)
  · exact (fieldOrder_classification ⟨true, false⟩
      "Multi frame detection: TFF: 3 BFF: 4 Progressive: 9" 3 4 9).2.2.2.2.1 (by decide)
      (by decide) (by decide)
  · exact (fieldOrder_classification ⟨true, false⟩ idetOutEx 50 2 1000).2.2.2.2.2.1 (by decide)
      (by decide) (by decide)
  · exact (fieldOrder_classification ⟨true, false⟩
      "Multi frame detection: TFF: 11 BFF: 40 Progressive: 9" 11 40 9).2.2.2.2.2.2.1
      (by decide) (by decide) (by decide)

/-- C4: a scan whose fetched entry matches the event stat's size and
mtime performs no probe (the result is independent of every probe
oracle) and no catalog write, leaving the entry unchanged; and the
fingerprint is the sole no-op guard: whenever the scan is not a
directory skip, not a collision skip, and the fingerprint does not
match, a write (preceded by the probes) does occur. -/
theorem scanFile_fingerprint_sole_guard :
    ∀ (cfg : ScannerConfig) (gid : String → String) (mp mid : String) (st : FileStat)
      (d : MediaDoc) (i1 i2 : InfoExec) (r1 r2 : Except Unit String)
      (t1 t2 : ThumbOutcome) (now : ℤ),
      (d.mediaSize = st.size → d.mediaTime = st.mtimeMs →
        scanFile cfg gid mp mid st (some d) i1 r1 t1 now =
            scanFile cfg gid mp mid st (some d) i2 r2 t2 now ∧
          writtenOf (scanFile cfg gid mp mid st (some d) i1 r1 t1 now) = none) ∧
      (¬(mid = "" ∨ st.isDir = true) → ¬(d.mediaPath ≠ "" ∧ d.mediaPath ≠ mp) →
        ¬(d.mediaSize = st.size ∧ d.mediaTime = st.mtimeMs) →
        (writtenOf (scanFile cfg gid mp mid st (some d) i1 r1 t1 now)).isSome = true) := by
  intro cfg gid mp mid st d i1 i2 r1 r2 t1 t2 now
  constructor
  · intro h1 h2
    by_cases hig : mid = "" ∨ st.isDir = true
    · simp [scanFile, hig, writtenOf]
    · by_cases hcol : d.mediaPath ≠ "" ∧ d.mediaPath ≠ mp
      · simp [scanFile, hig, hcol, writtenOf]
      · simp [scanFile, hig, hcol, h1, h2, writtenOf]
  · intro hig hcol hch
    simp [scanFile, hig, hcol, hch, writtenOf]

/-- Witness for the fingerprint theorem: an entry matching a 10-byte,
mtime-7 stat is untouched by a re-scan, and the same entry with a
different stat is written. -/
theorem scanFile_fingerprint_sole_guard_witness :
    writtenOf (scanFile ⟨false, false⟩ (fun p => p) "/m/a.mov" "A" ⟨10, 7, false⟩
      (some ⟨"A", "1", "/m/a.mov", 10, 7, none, none, none, none, none, false, none⟩)
      InfoExec.fail (Except.error ()) ThumbOutcome.execFail 0) = none ∧
    (writtenOf (scanFile ⟨false, false⟩ (fun p => p) "/m/a.mov" "A" ⟨11, 7, false⟩
      (some ⟨"A", "1", "/m/a.mov", 10, 7, none, none, none, none, none, false, none⟩)
      InfoExec.fail (Except.error ()) ThumbOutcome.execFail 0)).isSome = true := by
  constructor
  · exact ((scanFile_fingerprint_sole_guard ⟨false, false⟩ (fun p => p) "/m/a.mov" "A"
      ⟨10, 7, false⟩ ⟨"A", "1", "/m/a.mov", 10, 7, none, none, none, none, none, false, none⟩
      InfoExec.fail InfoExec.fail (Except.error ()) (Except.error ())
      ThumbOutcome.execFail ThumbOutcome.execFail 0).1 (by decide) (by decide)).2
  · exact (scanFile_fingerprint_sole_guard ⟨false, false⟩ (fun p => p) "/m/a.mov" "A"
      ⟨11, 7, false⟩ ⟨"A", "1", "/m/a.mov", 10, 7, none, none, none, none, none, false, none⟩
      InfoExec.fail InfoExec.fail (Except.error ()) (Except.error ())
      ThumbOutcome.execFail ThumbOutcome.execFail 0).2 (by decide) (by decide) (by decide)

/-- C5: an event whose fetched entry carries a non-empty stored path
differing from the event's path is skipped entirely: no probe oracle is
consulted, nothing is written, and on the non-directory path the result
is exactly the collision skip. -/
theorem scanFile_collision_skip :
    ∀ (cfg : ScannerConfig) (gid : String → String) (mp mid : String) (st : FileStat)
      (d : MediaDoc) (i : InfoExec) (r : Except Unit String) (t : ThumbOutcome) (now : ℤ),
      d.mediaPath ≠ "" → d.mediaPath ≠ mp →
      writtenOf (scanFile cfg gid mp mid st (some d) i r t now) = none ∧
      (¬(mid = "" ∨ st.isDir = true) →
        scanFile cfg gid mp mid st (some d) i r t now = ScanResult.skippedCollision) := by
  intro cfg gid mp mid st d i r t now h1 h2
  constructor
  · by_cases hig : mid = "" ∨ st.isDir = true
    · simp [scanFile, hig, writtenOf]
    · simp [scanFile, hig, h1, h2, writtenOf]
  · intro hig
    simp [scanFile, hig, h1, h2]

/-- Witness for the collision theorem: an entry stored for `/m/a.mov`
is not clobbered by an event for `/m/b.mov` whose id collides. -/
theorem scanFile_collision_skip_witness :
    scanFile ⟨false, false⟩ (fun _ => "A") "/m/b.mov" "A" ⟨11, 9, false⟩
      (some ⟨"A", "1", "/m/a.mov", 10, 7, none, none, none, none, none, false, none⟩)
      InfoExec.fail (Except.error ()) ThumbOutcome.execFail 0 = ScanResult.skippedCollision := by
  exact (scanFile_collision_skip ⟨false, false⟩ (fun _ => "A") "/m/b.mov" "A" ⟨11, 9, false⟩
    ⟨"A", "1", "/m/a.mov", 10, 7, none, none, none, none, none, false, none⟩
    InfoExec.fail (Except.error ()) ThumbOutcome.execFail 0 (by decide) (by decide)).2
    (by decide)

/-- C6: when the info probe fails and the thumbnail succeeds, the write
still proceeds with updated stat and thumbnail fields while `cinf` and
the mediainfo fields keep their previous values; symmetrically, a
thumbnail failure leaves the info side and the write intact (the
document is written with `cinf` regenerated and the thumbnail fields
unchanged). -/
theorem scanFile_partial_failure :
    ∀ (cfg : ScannerConfig) (gid : String → String) (mp mid : String) (st : FileStat)
      (d : MediaDoc) (r : Except Unit String) (now : ℤ) (size : ℕ) (mtime : ℤ)
      (bytes : String) (json : FFProbeJson) (u : MediaDoc),
      ¬(mid = "" ∨ st.isDir = true) →
      ¬(d.mediaPath ≠ "" ∧ d.mediaPath ≠ mp) →
      ¬(d.mediaSize = st.size ∧ d.mediaTime = st.mtimeMs) →
      u = { d with mediaPath := mp, mediaSize := st.size, mediaTime := st.mtimeMs } →
      (scanFile cfg gid mp mid st (some d) InfoExec.fail r
          (ThumbOutcome.ok size mtime bytes) now =
        ScanResult.written
          { u with thumbSize := some size, thumbTime := some mtime,
                   tinf := some (generateTinfStr gid u size mtime),
                   thumbAttachment := some bytes }) ∧
      (scanFile cfg gid mp mid st (some d) (InfoExec.ok json) r ThumbOutcome.execFail now =
        ScanResult.written (applyGenerateInfo cfg gid (InfoExec.ok json) r now u)) ∧
      (applyGenerateInfo cfg gid (InfoExec.ok json) r now u).thumbSize = d.thumbSize ∧
      (applyGenerateInfo cfg gid (InfoExec.ok json) r now u).thumbTime = d.thumbTime ∧
      (applyGenerateInfo cfg gid (InfoExec.ok json) r now u).tinf = d.tinf ∧
      (applyGenerateInfo cfg gid (InfoExec.ok json) r now u).thumbAttachment =
        d.thumbAttachment ∧
      (json.streams.isEmpty = false →
        (applyGenerateInfo cfg gid (InfoExec.ok json) r now u).cinf =
          some (generateCinf gid u json now)) := by
  intro cfg gid mp mid st d r now size mtime bytes json u hig hcol hch hu
  subst hu
  refine ⟨?_, ?_, ?_, ?_, ?_, ?_, ?_⟩
  · simp [scanFile, hig, hcol, hch, applyGenerateInfo, applyGenerateThumb]
  · simp [scanFile, hig, hcol, hch, applyGenerateThumb]
  all_goals
    simp only [applyGenerateInfo]
    cases hje : json.streams.isEmpty
  all_goals
    try intro hje2
  all_goals
    try simp only [if_true, if_false]
  all_goals
    first
    | rfl
    | (by_cases hmeta : cfg.metadataEnabled = true
       · cases hfo : fieldOrderDetect cfg r with
         | error e => simp [hje, hmeta, hfo]
         | ok fo => simp [hje, hmeta, hfo]
       · simp [hje, hmeta])
    | simp [hje]
    | (exact absurd hje2 (by simp [hje]))

/-- Witness for the partial-failure theorem: a new entry scanned with a
failing info probe and a succeeding thumbnail is written with the
thumbnail and stat fields set and `cinf` still absent. -/
theorem scanFile_partial_failure_witness :
    scanFile ⟨false, false⟩ (fun p => p) "/m/a.mov" "A" ⟨10, 7, false⟩
        (some (emptyDocFor "A")) InfoExec.fail (Except.error ())
        (ThumbOutcome.ok 3 4 "PNG") 0 =
      ScanResult.written
        ⟨"A", "0", "/m/a.mov", 10, 7, none,
          some (generateTinfStr (fun p => p)
            ⟨"A", "0", "/m/a.mov", 10, 7, none, none, none, none, none, false, none⟩ 3 4),
          some 3, some 4, none, false, some "PNG"⟩ := by
  exact (scanFile_partial_failure ⟨false, false⟩ (fun p => p) "/m/a.mov" "A" ⟨10, 7, false⟩
    (emptyDocFor "A") (Except.error ()) 0 3 4 "PNG" ⟨[audioStreamEx], ⟨some "2"⟩⟩
    ⟨"A", "0", "/m/a.mov", 10, 7, none, none, none, none, none, false, none⟩
    (by decide) (by decide) (by decide) rfl).1

/-- C9: the event pipeline is a strictly sequential fold over the
arrival-ordered event list, and an exception while processing one event
is absorbed by the per-event catch: the catalog is left as it was and
every subsequent event is still processed. -/
theorem pipeline_error_isolation :
    ∀ (env : EventEnv) (cat : Catalog) (xs ys : List FsEvent) (ev : FsEvent),
      runPipeline env cat (xs ++ ys) = runPipeline env (runPipeline env cat xs) ys ∧
      (processEvent env (runPipeline env cat xs) ev = Except.error () →
        runPipeline env cat (xs ++ ev :: ys) = runPipeline env (runPipeline env cat xs) ys) := by
  intro env cat xs ys ev
  constructor
  · unfold runPipeline
    exact List.foldl_append _ _ xs ys
  · intro herr
    unfold runPipeline
    rw [List.foldl_append]
    simp only [List.foldl_cons]
    unfold runPipeline at herr
    simp [processEventCaught, herr]

/-- Witness for the pipeline theorem: an unlink of an unknown id (whose
catalog lookup rejects) is absorbed, and the following add event is
still processed. -/
theorem pipeline_error_isolation_witness :
    processEvent envNoProbes (runPipeline envNoProbes [] []) evUnlinkEx = Except.error () ∧
    runPipeline envNoProbes [] ([] ++ evUnlinkEx :: [evAddEx]) =
      runPipeline envNoProbes (runPipeline envNoProbes [] []) [evAddEx] := by
  refine ⟨rfl, ?_⟩
  exact (pipeline_error_isolation envNoProbes [] [] [evAddEx] evUnlinkEx).2 rfl

/-- Helper: `getLast?` yields a member. -/
theorem mem_of_getLast_opt {χ : Type} {l : List χ} {a : χ} (h : l.getLast? = some a) :
    a ∈ l := by
  have hne : l ≠ [] := by intro he; rw [he] at h; simp at h
  have h2 := List.getLast?_eq_getLast l hne
  rw [h2] at h
  have h3 := List.getLast_mem hne
  rwa [Option.some_inj.mp h] at h3

/-- Helper: `contains` is membership (decidable equality). -/
theorem contains_eq_decide_mem {χ : Type} [DecidableEq χ] (l : List χ) (x : χ) :
    l.contains x = decide (x ∈ l) := by
  simp [List.contains_iff_exists_mem_beq]

/-- Helper: in a strictly id-sorted row list every row's id is at most
the last row's id. -/
theorem sorted_le_getLast {α : Type} [LinearOrder α] :
    ∀ (l : List (SweepDoc α)), SweepSorted l → ∀ (last : SweepDoc α),
      l.getLast? = some last → ∀ x ∈ l, x._id ≤ last._id := by
  intro l
  induction l with
  | nil => intro _ last h; simp at h
  | cons a t ih =>
    intro hs last h x hx
    cases t with
    | nil =>
      have ha : last = a := by simpa [List.getLast?] using h.symm
      have hxa : x = a := by simpa using hx
      rw [ha, hxa]
    | cons b t2 =>
      rw [List.getLast?_cons_cons] at h
      have hs2 : SweepSorted (b :: t2) := (List.pairwise_cons.mp hs).2
      rcases List.mem_cons.mp hx with hxa | hxt
      · have hlmem : last ∈ b :: t2 := mem_of_getLast_opt h
        have hlt := (List.pairwise_cons.mp hs).1 last hlmem
        rw [hxa]
        exact le_of_lt hlt
      · exact ih hs2 last h x hxt

/-- Helper: ids are injective on a strictly id-sorted row list. -/
theorem sorted_id_inj {α : Type} [LinearOrder α] :
    ∀ (l : List (SweepDoc α)), SweepSorted l →
      ∀ x ∈ l, ∀ y ∈ l, x._id = y._id → x = y := by
  intro l
  induction l with
  | nil => intro _ x hx; simp at hx
  | cons a t ih =>
    intro hs x hx y hy hxy
    have hrel := (List.pairwise_cons.mp hs).1
    have ht := (List.pairwise_cons.mp hs).2
    rcases List.mem_cons.mp hx with rfl | hxt
    · rcases List.mem_cons.mp hy with rfl | hyt
      · rfl
      · exact absurd hxy (ne_of_lt (hrel y hyt))
    · rcases List.mem_cons.mp hy with rfl | hyt
      · exact absurd hxy.symm (ne_of_lt (hrel x hxt))
      · exact ih ht x hxt y hyt hxy

/-- Helper (core of the cursor step): after one page's batched delete,
the catalog rows at or after the last row's id are the last row itself
(when it survived the delete) followed by the rows after the page.
`p0` is the membership predicate of the pending view (`true` for the
first page, an id lower bound for later pages) and is upward closed. -/
theorem sweep_bridge_core {α : Type} [LinearOrder α] [DecidableEq α]
    (keep : SweepDoc α → Bool) (db pend : List (SweepDoc α)) (p0 : SweepDoc α → Bool)
    (hdb : pend = db.filter p0)
    (hup : ∀ x y : SweepDoc α, p0 x = true → x._id ≤ y._id → p0 y = true)
    (hsorted : pend.Pairwise (fun a b => a._id < b._id))
    (last : SweepDoc α)
    (hlast : (pend.take sweepLimit).getLast? = some last) :
    (db.filter
        (fun d => !((sweepPageDeleted keep (pend.take sweepLimit)).contains d._id))).filter
        (fun d => decide (last._id ≤ d._id)) =
      (if keep last then [last] else []) ++ pend.drop sweepLimit := by
  have hrowsne : pend.take sweepLimit ≠ [] := by
    intro he; rw [he] at hlast; simp at hlast
  have hsplit : pend.take sweepLimit ++ pend.drop sweepLimit = pend :=
    List.take_append_drop _ _
  have hsortsplit :
      (pend.take sweepLimit ++ pend.drop sweepLimit).Pairwise (fun a b => a._id < b._id) := by
    rw [hsplit]; exact hsorted
  obtain ⟨hrowsS, hrestS, hcross⟩ := List.pairwise_append.mp hsortsplit
  have hlastmem : last ∈ pend.take sweepLimit := mem_of_getLast_opt hlast
  have hp0last : p0 last = true := by
    have hmem : last ∈ pend := (List.take_sublist _ _).subset hlastmem
    rw [hdb] at hmem
    exact (List.mem_filter.mp hmem).2
  have hdelmem : ∀ z : α,
      z ∈ sweepPageDeleted keep (pend.take sweepLimit) ↔
        ∃ d, d ∈ pend.take sweepLimit ∧ keep d = false ∧ d._id = z := by
    intro z
    simp only [sweepPageDeleted, List.mem_map, List.mem_filter]
    constructor
    · rintro ⟨d, ⟨hd1, hd2⟩, hd3⟩
      exact ⟨d, hd1, by simpa using hd2, hd3⟩
    · rintro ⟨d, hd1, hd2, hd3⟩
      exact ⟨d, ⟨hd1, by simp [hd2]⟩, hd3⟩
  have hglast :
      (!((sweepPageDeleted keep (pend.take sweepLimit)).contains last._id)) = keep last := by
    rw [contains_eq_decide_mem]
    cases hk : keep last with
    | true =>
      have hno : ¬ last._id ∈ sweepPageDeleted keep (pend.take sweepLimit) := by
        intro hmem
        rcases (hdelmem _).mp hmem with ⟨d, hd1, hd2, hd3⟩
        have hdl : d = last := sorted_id_inj _ hrowsS d hd1 last hlastmem hd3
        rw [hdl, hk] at hd2
        exact Bool.noConfusion hd2
      simp [hno]
    | false =>
      have hyes : last._id ∈ sweepPageDeleted keep (pend.take sweepLimit) :=
        (hdelmem _).mpr ⟨last, hlastmem, hk, rfl⟩
      simp [hyes]
  have hgrest : ∀ y ∈ pend.drop sweepLimit,
      (!((sweepPageDeleted keep (pend.take sweepLimit)).contains y._id)) = true := by
    intro y hy
    rw [contains_eq_decide_mem]
    have hno : ¬ y._id ∈ sweepPageDeleted keep (pend.take sweepLimit) := by
      intro hmem
      rcases (hdelmem _).mp hmem with ⟨d, hd1, _, hd3⟩
      have hlt := hcross d hd1 y hy
      rw [hd3] at hlt
      exact lt_irrefl _ hlt
    simp [hno]
  rw [List.filter_filter]
  have hcomb : db.filter (fun d =>
        decide (last._id ≤ d._id) &&
          !((sweepPageDeleted keep (pend.take sweepLimit)).contains d._id)) =
      pend.filter (fun d =>
        decide (last._id ≤ d._id) &&
          !((sweepPageDeleted keep (pend.take sweepLimit)).contains d._id)) := by
    rw [hdb, List.filter_filter]
    apply List.filter_congr
    intro d _
    cases hle : decide (last._id ≤ d._id) with
    | false => simp
    | true =>
      have hp0d : p0 d = true := hup last d hp0last (of_decide_eq_true hle)
      simp [hp0d]
  rw [hcomb]
  have h0 : pend.filter (fun d =>
        decide (last._id ≤ d._id) &&
          !((sweepPageDeleted keep (pend.take sweepLimit)).contains d._id)) =
      (pend.take sweepLimit ++ pend.drop sweepLimit).filter (fun d =>
        decide (last._id ≤ d._id) &&
          !((sweepPageDeleted keep (pend.take sweepLimit)).contains d._id)) := by
    rw [hsplit]
  rw [h0, List.filter_append]
  have hgetlast : (pend.take sweepLimit).getLast hrowsne = last := by
    have he := List.getLast?_eq_getLast (pend.take sweepLimit) hrowsne
    rw [he] at hlast
    exact Option.some_inj.mp hlast
  have hdecomp : (pend.take sweepLimit).dropLast ++ [last] = pend.take sweepLimit := by
    rw [← hgetlast]
    exact List.dropLast_append_getLast hrowsne
  have hdlsort :
      ((pend.take sweepLimit).dropLast ++ [last]).Pairwise (fun a b => a._id < b._id) := by
    rw [hdecomp]; exact hrowsS
  have hdl_lt : ∀ x ∈ (pend.take sweepLimit).dropLast, x._id < last._id := by
    intro x hx
    exact (List.pairwise_append.mp hdlsort).2.2 x hx last (by simp)
  have hrows_eq : (pend.take sweepLimit).filter (fun d =>
        decide (last._id ≤ d._id) &&
          !((sweepPageDeleted keep (pend.take sweepLimit)).contains d._id)) =
      if keep last then [last] else [] := by
    generalize hD : sweepPageDeleted keep (pend.take sweepLimit) = D at hglast ⊢
    conv_lhs => rw [← hdecomp]
    rw [List.filter_append]
    have hdl0 : ((pend.take sweepLimit).dropLast).filter (fun d =>
        decide (last._id ≤ d._id) && !(D.contains d._id)) = [] := by
      apply List.filter_eq_nil_iff.mpr
      intro x hx
      have hlt := hdl_lt x hx
      simp [not_le_of_lt hlt]
    rw [hdl0]
    rw [List.filter_cons]
    have hfl : (decide (last._id ≤ last._id) && !(D.contains last._id)) = keep last := by
      rw [hglast]; simp
    rw [hfl]
    cases keep last <;> simp
  have hrest_eq : (pend.drop sweepLimit).filter (fun d =>
        decide (last._id ≤ d._id) &&
          !((sweepPageDeleted keep (pend.take sweepLimit)).contains d._id)) =
      pend.drop sweepLimit := by
    apply List.filter_eq_self.mpr
    intro y hy
    have hlt := hcross last hlastmem y hy
    rw [hgrest y hy]
    simp [le_of_lt hlt]
  rw [hrows_eq, hrest_eq]

/-- Helper: the pending view after a page's batched delete, listed from
the inclusive cursor at the page's last row: the last row itself when it
survived, followed by the rows after the page. -/
theorem sweepPending_after {α : Type} [LinearOrder α] [DecidableEq α]
    (keep : SweepDoc α → Bool) (db : List (SweepDoc α)) (sk : Option α)
    (last : SweepDoc α) (hs : SweepSorted db)
    (hlast : (sweepPage db sk).getLast? = some last) :
    sweepPending (sweepAfterPage keep db sk) (some last._id) =
      (if keep last then [last] else []) ++ (sweepPending db sk).drop sweepLimit := by
  cases sk with
  | none =>
    have hlast2 : ((db.filter (fun _ => true)).take sweepLimit).getLast? = some last := by
      simpa [sweepPage, sweepPending] using hlast
    have hcore := sweep_bridge_core keep db (db.filter (fun _ => true)) (fun _ => true)
      rfl (fun _ _ _ _ => rfl) (by simpa using hs) last hlast2
    simpa [sweepPending, sweepAfterPage, sweepPage] using hcore
  | some k =>
    have hlast2 :
        ((db.filter (fun d => decide (k ≤ d._id))).take sweepLimit).getLast? = some last := by
      simpa [sweepPage, sweepPending] using hlast
    have hcore := sweep_bridge_core keep db (db.filter (fun d => decide (k ≤ d._id)))
      (fun d => decide (k ≤ d._id)) rfl
      (fun x y hx hxy => decide_eq_true (le_trans (of_decide_eq_true hx) hxy))
      (hs.filter _) last hlast2
    simpa [sweepPending, sweepAfterPage, sweepPage] using hcore

/-- Helper: with enough fuel, the pagination loop deletes exactly the
pending rows failing the survival test, in row order. -/
theorem sweepLoop_run {α : Type} [LinearOrder α] [DecidableEq α] (keep : SweepDoc α → Bool) :
    ∀ (fuel : ℕ) (db : List (SweepDoc α)) (sk : Option α) (acc : List α),
      SweepSorted db → (sweepPending db sk).length < fuel →
      sweepLoop keep fuel db sk acc = acc ++ sweepPageDeleted keep (sweepPending db sk) := by
  intro fuel
  induction fuel with
  | zero => intro db sk acc _ hlen; exact absurd hlen (by omega)
  | succ f ih =>
    intro db sk acc hs hlen
    simp only [sweepLoop]
    by_cases hshort : (sweepPage db sk).length < sweepLimit
    · rw [if_pos hshort]
      have hpend_short : (sweepPending db sk).length < sweepLimit := by
        rw [sweepPage, List.length_take] at hshort
        omega
      have hrows : sweepPage db sk = sweepPending db sk := by
        rw [sweepPage]
        exact List.take_of_length_le (le_of_lt hpend_short)
      rw [hrows]
    · rw [if_neg hshort]
      have hfull : (sweepPage db sk).length = sweepLimit := by
        rw [sweepPage, List.length_take] at hshort ⊢
        omega
      have hne : sweepPage db sk ≠ [] := by
        intro he
        rw [he] at hfull
        simp [sweepLimit] at hfull
      have hlast : (sweepPage db sk).getLast? = some ((sweepPage db sk).getLast hne) :=
        List.getLast?_eq_getLast _ hne
      rw [hlast]
      have hs2 : SweepSorted (sweepAfterPage keep db sk) := hs.filter _
      have hbridge := sweepPending_after keep db sk ((sweepPage db sk).getLast hne) hs hlast
      have hdroplen :
          (sweepPending db sk).length =
            sweepLimit + ((sweepPending db sk).drop sweepLimit).length := by
        conv_lhs => rw [← List.take_append_drop sweepLimit (sweepPending db sk)]
        rw [List.length_append]
        rw [sweepPage] at hfull
        rw [hfull]
      have hlen2 :
          (sweepPending (sweepAfterPage keep db sk)
            (some ((sweepPage db sk).getLast hne)._id)).length < f := by
        rw [hbridge, List.length_append, List.length_drop]
        have h256 : sweepLimit = 256 := rfl
        have hifle : (if keep ((sweepPage db sk).getLast hne) = true
            then [(sweepPage db sk).getLast hne] else []).length ≤ 1 := by
          cases keep ((sweepPage db sk).getLast hne) <;> simp
        rw [List.length_drop] at hdroplen
        simp only [h256] at hlen hdroplen hifle ⊢
        omega
      have hih := ih (sweepAfterPage keep db sk)
        (some ((sweepPage db sk).getLast hne)._id)
        (acc ++ sweepPageDeleted keep (sweepPage db sk)) hs2 hlen2
      rw [hbridge] at hih
      show sweepLoop keep f (sweepAfterPage keep db sk)
          (some ((sweepPage db sk).getLast hne)._id)
          (acc ++ sweepPageDeleted keep (sweepPage db sk)) =
        acc ++ sweepPageDeleted keep (sweepPending db sk)
      rw [hih]
      have hdel_if :
          sweepPageDeleted keep
              ((if keep ((sweepPage db sk).getLast hne) then [(sweepPage db sk).getLast hne]
                else []) ++ (sweepPending db sk).drop sweepLimit) =
            sweepPageDeleted keep ((sweepPending db sk).drop sweepLimit) := by
        cases hk : keep ((sweepPage db sk).getLast hne) with
        | true => simp [sweepPageDeleted, List.filter_cons, hk]
        | false => simp
      have hdel_split :
          sweepPageDeleted keep (sweepPending db sk) =
            sweepPageDeleted keep (sweepPage db sk) ++
              sweepPageDeleted keep ((sweepPending db sk).drop sweepLimit) := by
        rw [sweepPage]
        simp only [sweepPageDeleted]
        conv_lhs => rw [← List.take_append_drop sweepLimit (sweepPending db sk)]
        rw [List.filter_append, List.map_append]
      rw [hdel_if, hdel_split, List.append_assoc]

/-- C2 (counterexample): an entry whose stored path lies outside the
scan root — and whose file even exists as a regular file — is deleted by
the sweep: the per-row test falls through to the batched delete without
statting when the normalized path does not start with the normalized
root, so out-of-root entries are not left untouched. -/
theorem sweep_deletes_out_of_root_entry :
    strStartsWith "/elsewhere/clip.mov" "/media" = false ∧
    cleanDeleted (sweepKeep (fun s => s) "/media" (fun _ => some true)) sweepDbOutside =
      [0] := by decide

/-- C2 (amended): one full sweep pass deletes exactly the entries
failing the survival test: an entry under the scan root is deleted iff
its stat fails or reports a non-regular file, and an entry whose stored
path lies outside the scan root is always deleted, without being
statted. -/
theorem cleanDeleted_deletes_exactly {α : Type} [LinearOrder α] [DecidableEq α]
    (norm : String → String) (root : String) (stat : String → Option Bool)
    (db : List (SweepDoc α)) (hs : SweepSorted db) :
    cleanDeleted (sweepKeep norm root stat) db =
      (db.filter (fun d => !(sweepKeep norm root stat d))).map (fun d => d._id) := by
  unfold cleanDeleted
  have h := sweepLoop_run (sweepKeep norm root stat) (db.length + 1) db none [] hs
    (by simp [sweepPending])
  simpa [sweepPending, sweepPageDeleted] using h

/-- Witness for the amended sweep theorem: of three entries, the one
under the root with a live file survives; the out-of-root one and the
one whose stat rejects are deleted within the pass. -/
theorem cleanDeleted_deletes_exactly_witness :
    cleanDeleted (sweepKeep (fun s => s) "/media" sweepStatSmall) sweepDbSmall =
      (sweepDbSmall.filter
        (fun d => !(sweepKeep (fun s => s) "/media" sweepStatSmall d))).map
        (fun d => d._id) :=
  cleanDeleted_deletes_exactly (fun s => s) "/media" sweepStatSmall sweepDbSmall (by decide)

set_option maxRecDepth 100000 in
/-- C10 (counterexample): with 257 entries where the 256th file is gone,
the first page's last row (id 255) is deleted in that page, and the next
page — listed inclusively from the cursor id 255 — does not contain it:
the last row of a full page is NOT always fetched a second time. -/
theorem sweep_cursor_no_refetch_when_deleted :
    ((sweepPage sweepDbBig none).getLast?).map (fun d => d._id) = some 255 ∧
    sweepKeepBig ⟨255, "1-a", "gone"⟩ = false ∧
    (sweepPage sweepDbBig none).length = sweepLimit ∧
    ((sweepPage (sweepAfterPage sweepKeepBig sweepDbBig none) (some 255)).map
      (fun d => d._id)) = [256] := by decide

/-- C10 (amended): the sweep's cursor is the id of the last row of a
completed full page and the next listing starts inclusively at that key,
so the last row — provided it survived that page's batched delete — is
fetched again as the first row of the following page and is statted in
both pages. -/
theorem sweep_cursor_refetches_surviving_last {α : Type} [LinearOrder α] [DecidableEq α]
    (norm : String → String) (root : String) (stat : String → Option Bool)
    (db : List (SweepDoc α)) (last : SweepDoc α) (hs : SweepSorted db)
    (hlast : (sweepPage db none).getLast? = some last)
    (hkeep : sweepKeep norm root stat last = true) :
    (sweepPage (sweepAfterPage (sweepKeep norm root stat) db none) (some last._id)).head? =
        some last ∧
      last ∈ sweepStatted norm root (sweepPage db none) ∧
      last ∈ sweepStatted norm root
        (sweepPage (sweepAfterPage (sweepKeep norm root stat) db none) (some last._id)) := by
  have hbridge := sweepPending_after (sweepKeep norm root stat) db none last hs hlast
  have hbridge2 : sweepPending (sweepAfterPage (sweepKeep norm root stat) db none)
      (some last._id) = last :: (sweepPending db none).drop sweepLimit := by
    rw [hbridge, hkeep]
    simp
  have hpage2 : sweepPage (sweepAfterPage (sweepKeep norm root stat) db none)
      (some last._id) =
      last :: ((sweepPending db none).drop sweepLimit).take 255 := by
    rw [sweepPage, hbridge2]
    have h256 : sweepLimit = 255 + 1 := rfl
    rw [h256, List.take_succ_cons]
  have hstart : strStartsWith (norm last.mediaPath) (norm root) = true := by
    have h2 := hkeep
    unfold sweepKeep at h2
    simp only [Bool.and_eq_true] at h2
    exact h2.1
  refine ⟨?_, ?_, ?_⟩
  · rw [hpage2]
    rfl
  · exact List.mem_filter.mpr ⟨mem_of_getLast_opt hlast, hstart⟩
  · rw [hpage2]
    exact List.mem_filter.mpr ⟨by simp, hstart⟩

set_option maxRecDepth 100000 in
/-- Witness for the amended cursor theorem: 257 live entries; the first
page's last row (id 255) survives and reappears as the head of the
second page, statted in both. -/
theorem sweep_cursor_refetches_surviving_last_witness :
    (sweepPage (sweepAfterPage (sweepKeep (fun s => s) "" sweepStatBig) sweepDbAll none)
        (some ((⟨255, "1-a", "here"⟩ : SweepDoc ℕ)._id))).head? =
        some ⟨255, "1-a", "here"⟩ ∧
      (⟨255, "1-a", "here"⟩ : SweepDoc ℕ) ∈
        sweepStatted (fun s => s) "" (sweepPage sweepDbAll none) ∧
      (⟨255, "1-a", "here"⟩ : SweepDoc ℕ) ∈
        sweepStatted (fun s => s) ""
          (sweepPage (sweepAfterPage (sweepKeep (fun s => s) "" sweepStatBig) sweepDbAll none)
            (some ((⟨255, "1-a", "here"⟩ : SweepDoc ℕ)._id))) :=
  sweep_cursor_refetches_surviving_last (fun s => s) "" sweepStatBig sweepDbAll
    ⟨255, "1-a", "here"⟩ (by decide) (by decide) (by decide)
